import Mathlib

/-!
Shallow embedding of `hekmon/btblocklist`, package `updater`
(`src/updater/updater.go`), for checking the specification's claims.

Modelling conventions:
- Go `time.Time` values are modelled as `Nat` (an abstract instant);
  `time.Time.Format` is an arbitrary pure function `Nat → String` passed in.
- Byte slices are modelled as `String` (the exact byte content matters,
  not its numeric encoding).
- The gzip compressor is an arbitrary pure function `gz : String → String`
  applied to the exact byte stream the Go code feeds to `compressor.Write`
  / `io.Copy` (Go's gzip output at a fixed level is a deterministic pure
  function of the written bytes; the blob embeds no timestamp).
- Go maps (`c.externalStates`, `map[string][]string`) are modelled as
  association lists `List (String × List String)` whose list order stands
  for the iteration order a particular `range` statement happens to see;
  two lists that are permutations of each other denote identical map
  content.
-/

namespace BTBlocklist

/-- The fields of `updater.Controller` that the updater worker touches.
`compressedData` is `none` before the first successful publish (Go `nil`
slice). -/
structure ControllerState where
  ripeState : List String
  externalStates : List (String × List String)
  compressedData : Option String
  lastUpdate : Nat
  lastBatch : Nat
deriving DecidableEq, Repr

/-- Go `gzip.BestCompression`. -/
def gzipBestCompression : Int := 9

/-- Go `gzip.HuffmanOnly`. -/
def gzipHuffmanOnly : Int := -2

/-- `gzip.NewWriterLevel` fails exactly when the level is outside
`[HuffmanOnly, BestCompression]`; writes to the underlying
`bytes.Buffer` never fail (documented contract of `bytes.Buffer.Write`),
so this is the only fallible step of the compilation. -/
def gzipNewWriterLevelOk (level : Int) : Bool :=
  !(level < gzipHuffmanOnly || level > gzipBestCompression)

/-- The fixed header written first: `"# BTBlocklist RIPE search\n"`. -/
def headerLine : String := "# BTBlocklist RIPE search\n"

/-- What one external source contributes to the stream:
`strings.Join(lines, "\n")` followed by the extra `"\n"` write. -/
def externalSection (p : String × List String) : String :=
  String.intercalate "\n" p.2 ++ "\n"

/-- The exact byte stream `compileFinalDataBlobFromCache` feeds to the
compressor: header, `strings.Join(c.ripeState, "\n")`, `"\n"`, then for
each entry of `c.externalStates` in iteration order its joined lines and
`"\n"`. -/
def uncompressedPayload (ripeState : List String)
    (externalStates : List (String × List String)) : String :=
  headerLine ++ String.intercalate "\n" ripeState ++ "\n" ++
    String.join (externalStates.map externalSection)

/-- `Controller.compileFinalDataBlobFromCache`: `none` models the Go
`nil` return taken on any error; the only reachable error branch is an
invalid compression level (the underlying writer is an in-memory
`bytes.Buffer`, whose writes always succeed). -/
def compileFinalDataBlobFromCache (gz : String → String)
    (s : ControllerState) : Option String :=
  if gzipNewWriterLevelOk gzipBestCompression then
    some (gz (uncompressedPayload s.ripeState s.externalStates))
  else
    none

/-- Modelled from the spec: the bodies of `Controller.updateRipe` and
`Controller.getExternalBlockList` are not under `src/`; §4.2 states each
probe either reports "no change" (slot untouched, also on failure) or
returns a full replacement sequence that overwrites its slot. A probe
outcome is therefore `Option (List String)`: `none` = no change. -/
def ProbeOutcome : Type := Option (List String)

/-- Overwrite the slot of one named external source (replacement is
wholesale, per §3 ExternalLines; the key set is fixed). -/
def updateSlot (states : List (String × List String)) (name : String)
    (newLines : List String) : List (String × List String) :=
  states.map (fun p => if p.1 = name then (p.1, newLines) else p)

/-- Apply the external probes' outcomes in probing order: a `some`
outcome overwrites that source's slot, a `none` outcome leaves it
untouched. -/
def applyExternalProbes (states : List (String × List String))
    (extRes : List (String × Option (List String))) :
    List (String × List String) :=
  extRes.foldl
    (fun st p =>
      match p.2 with
      | some lines => updateSlot st p.1 lines
      | none => st)
    states

/-- The state after the probing phase of `updaterBatch`: `ripeState`
replaced when `updateRipe` reported fresh data, external slots updated
per probe. `compressedData`, `lastUpdate`, `lastBatch` untouched. -/
def probedState (s : ControllerState) (ripeRes : Option (List String))
    (extRes : List (String × Option (List String))) : ControllerState :=
  { s with
    ripeState := ripeRes.getD s.ripeState
    externalStates := applyExternalProbes s.externalStates extRes }

/-- `ripeUpdate || externalUpdate` of `updaterBatch`: whether any probe
reported fresh data. -/
def anyChanged (ripeRes : Option (List String))
    (extRes : List (String × Option (List String))) : Bool :=
  ripeRes.isSome || extRes.any (fun p => p.2.isSome)

/-- The `fmt.Sprintf` inside `Controller.updateStatus`: the exact string
handed to the status sink. `fmtTime` stands for
`time.Time.Format("2 Jan 2006 15:04:05 MST")`. -/
def statusMessage (nbRIPEranges nbLists nbLines : Nat)
    (lstModif lstBatch : Nat) (fmtTime : Nat → String) : String :=
  "RIPE: " ++ toString nbRIPEranges ++ " range(s) | External: " ++
    toString nbLists ++ " list(s) with a total of " ++ toString nbLines ++
    " line(s) | Last modification: " ++ fmtTime lstModif ++
    " | Last update: " ++ fmtTime lstBatch

/-- `Controller.updateStatus`: calls the sink and, if it errors, only
logs; it returns the log lines produced and touches no state. -/
def updateStatus (statusUpdate : String → Except String Unit)
    (msg : String) : List String :=
  match statusUpdate msg with
  | Except.error e => ["[Updater] can't update status msg: " ++ e]
  | Except.ok _ => []

/-- The result of one `updaterBatch` invocation: the post-batch
controller state, the strings passed to the status sink (in order), and
the error-log lines of the status step. -/
structure BatchResult where
  state : ControllerState
  sent : List String
  logs : List String
deriving DecidableEq, Repr

/-- `Controller.updaterBatch` with the compile step abstracted to the
function `compileFn` it calls (`updaterBatch` uses it only through
`data := c.compileFinalDataBlobFromCache(); if data == nil return`).
Faithful control flow: probe, early return when nothing changed, compile
and publish (blob then `lastUpdate := batchStart`) unless compilation
returned nil; the deferred block then sets `lastBatch := batchStart`,
recounts the external lines from the state and reports status once. -/
def updaterBatchWith (compileFn : ControllerState → Option String)
    (statusUpdate : String → Except String Unit) (fmtTime : Nat → String)
    (s : ControllerState) (batchStart : Nat)
    (ripeRes : Option (List String))
    (extRes : List (String × Option (List String))) : BatchResult :=
  let s1 := probedState s ripeRes extRes
  let s2 :=
    if !(anyChanged ripeRes extRes) then s1
    else
      match compileFn s1 with
      | none => s1
      | some data =>
        { s1 with compressedData := some data, lastUpdate := batchStart }
  let s3 := { s2 with lastBatch := batchStart }
  let externalLines :=
    (s3.externalStates.map (fun p => p.2.length)).foldl (· + ·) 0
  let msg := statusMessage s3.ripeState.length s3.externalStates.length
    externalLines s3.lastUpdate s3.lastBatch fmtTime
  { state := s3, sent := [msg], logs := updateStatus statusUpdate msg }

/-- `Controller.updaterBatch` proper: the compile step is
`compileFinalDataBlobFromCache` with the gzip compressor `gz`. -/
def updaterBatch (gz : String → String)
    (statusUpdate : String → Except String Unit) (fmtTime : Nat → String)
    (s : ControllerState) (batchStart : Nat)
    (ripeRes : Option (List String))
    (extRes : List (String × Option (List String))) : BatchResult :=
  updaterBatchWith (compileFinalDataBlobFromCache gz) statusUpdate fmtTime
    s batchStart ripeRes extRes

/-- Events the `updater` worker loop can observe: a ticker tick or the
context cancellation (`ctx.Done()`). -/
inductive UpdaterEvent where
  | tick
  | done
deriving DecidableEq, Repr, BEq

/-- The `for { select { ... } }` loop of `Controller.updater`: each tick
runs one batch, the first cancellation stops the ticker and returns;
counts the batches run while consuming the event trace. -/
def updaterLoopBatches : List UpdaterEvent → Nat
  | [] => 0
  | UpdaterEvent.tick :: rest => updaterLoopBatches rest + 1
  | UpdaterEvent.done :: _ => 0

/-- `Controller.updater`: one batch immediately (before entering the
loop), then the loop over the observed events. -/
def updaterBatchCount (events : List UpdaterEvent) : Nat :=
  1 + updaterLoopBatches events

/-- Lexicographic strict order on character lists (Go compares strings
bytewise; for the names used here the two orders agree). -/
def ltChars : List Char → List Char → Bool
  | [], [] => false
  | [], _ :: _ => true
  | _ :: _, [] => false
  | a :: as, b :: bs =>
    if a.val < b.val then true
    else if b.val < a.val then false
    else ltChars as bs

/-- `a ≤ b` on source names. -/
def nameLe (a b : String) : Bool := !(ltChars b.data a.data)

/-- Ordered insertion for `sortByName`. -/
def insertByName (p : String × List String) :
    List (String × List String) → List (String × List String)
  | [] => [p]
  | q :: rest =>
    if nameLe p.1 q.1 then p :: q :: rest else q :: insertByName p rest

/-- Sort external sources ascending by name. -/
def sortByName : List (String × List String) →
    List (String × List String)
  | [] => []
  | p :: rest => insertByName p (sortByName rest)

/-- Follows the spec's words (§4.3), for comparison with
`uncompressedPayload`: "for each external source taken in a fixed
deterministic order (by name, ascending)". -/
def specOrderedPayload (ripeState : List String)
    (externalStates : List (String × List String)) : String :=
  headerLine ++ String.intercalate "\n" ripeState ++ "\n" ++
    String.join ((sortByName externalStates).map externalSection)

/-- Two external sources, listed ascending by name. -/
def extOrderAB : List (String × List String) :=
  [("alpha", ["1.1.1.1"]), ("beta", ["2.2.2.2"])]

/-- The same two external sources, listed descending by name: the same
Go map content seen under a different iteration order. -/
def extOrderBA : List (String × List String) :=
  [("beta", ["2.2.2.2"]), ("alpha", ["1.1.1.1"])]

/-- A controller state whose map iteration happens to be ascending. -/
def stateAB : ControllerState :=
  { ripeState := []
    externalStates := extOrderAB
    compressedData := none
    lastUpdate := 0
    lastBatch := 0 }

/-- The same controller state under the other iteration order. -/
def stateBA : ControllerState :=
  { ripeState := []
    externalStates := extOrderBA
    compressedData := none
    lastUpdate := 0
    lastBatch := 0 }

lemma updateSlot_length (st : List (String × List String)) (name : String)
    (lines : List String) : (updateSlot st name lines).length = st.length := by
  simp [updateSlot]

lemma applyExternalProbes_length
    (st : List (String × List String))
    (er : List (String × Option (List String))) :
    (applyExternalProbes st er).length = st.length := by
  induction er generalizing st with
  | nil => rfl
  | cons p rest ih =>
    cases hp : p.2 <;>
      simp [applyExternalProbes, List.foldl_cons, hp, updateSlot_length] <;>
      first
      | exact ih st
      | simpa [applyExternalProbes, updateSlot_length] using
          (updateSlot_length st p.1 _ ▸ ih (updateSlot st p.1 _))

lemma gzip_level_ok : gzipNewWriterLevelOk gzipBestCompression = true := by
  decide

/-- C1: the claim says the merge writes the external sections ascending
by source name, making the compressed output byte-identical across runs
over identical state. The code iterates the `externalStates` Go map
directly, so identical map content (`extOrderAB` is a permutation of
`extOrderBA`) can be iterated in two different orders, and the byte
streams fed to the compressor — hence the compressed blobs, for any
compressor `gz` that distinguishes them, here `id` — differ. -/
theorem c1_map_iteration_breaks_merge_determinism :
    List.Perm extOrderAB extOrderBA ∧
    compileFinalDataBlobFromCache id stateAB ≠
      compileFinalDataBlobFromCache id stateBA :=
  ⟨List.Perm.swap _ _ _, by decide⟩

/-- C2: the claim says the decompressed blob lists the external sections
ordered by name. At `stateBA` (iteration order beta before alpha) the
code emits beta's line before alpha's, which differs from the
name-ordered layout the spec prescribes; the header / joining / trailing
newline structure itself is as claimed. -/
theorem c2_blob_layout_not_name_ordered :
    uncompressedPayload [] extOrderBA =
      "# BTBlocklist RIPE search\n\n2.2.2.2\n1.1.1.1\n" ∧
    specOrderedPayload [] extOrderBA =
      "# BTBlocklist RIPE search\n\n1.1.1.1\n2.2.2.2\n" ∧
    uncompressedPayload [] extOrderBA ≠ specOrderedPayload [] extOrderBA := by
  refine ⟨by decide, by decide, by decide⟩

/-- C10: with empty `RipeLines` the stream is the header line followed
by an empty line (join of zero lines is empty, the trailing newline is
still written); an external source with zero lines contributes exactly
one empty line; and every external section ends with a newline. -/
theorem c10_empty_sections_keep_trailing_newline :
    (∀ ext, uncompressedPayload [] ext =
      "# BTBlocklist RIPE search\n" ++ "\n" ++
        String.join (ext.map externalSection)) ∧
    (∀ name : String, externalSection (name, []) = "\n") ∧
    (∀ p : String × List String,
      ∃ t, externalSection p = t ++ "\n") := by
  refine ⟨fun ext => ?_, fun name => rfl, fun p => ⟨_, rfl⟩⟩
  simp [uncompressedPayload, headerLine, String.intercalate]

/-- C9: compilation cannot actually fail: the only fallible step is
creating the gzip writer, and `gzip.BestCompression` is a valid level
(writes go to an in-memory `bytes.Buffer`, which never errors), so the
function always returns a blob; consequently a batch in which some probe
reported fresh data always publishes and advances `lastUpdate`. -/
theorem c9_compile_never_fails (gz : String → String)
    (statusUpdate : String → Except String Unit) (fmtTime : Nat → String)
    (s : ControllerState) (batchStart : Nat)
    (ripeRes : Option (List String))
    (extRes : List (String × Option (List String))) :
    (compileFinalDataBlobFromCache gz s).isSome = true ∧
    (anyChanged ripeRes extRes = true →
      (updaterBatch gz statusUpdate fmtTime s batchStart ripeRes
          extRes).state.lastUpdate = batchStart ∧
      (updaterBatch gz statusUpdate fmtTime s batchStart ripeRes
          extRes).state.compressedData =
        some (gz (uncompressedPayload
          (probedState s ripeRes extRes).ripeState
          (probedState s ripeRes extRes).externalStates))) := by
  constructor
  · simp [compileFinalDataBlobFromCache, gzip_level_ok]
  · intro h
    simp [updaterBatch, updaterBatchWith, h, compileFinalDataBlobFromCache,
      gzip_level_ok]

/-- Witness for C9 at a concrete changed batch. -/
theorem c9_compile_never_fails_witness :
    anyChanged (some ["r1"])
        ([] : List (String × Option (List String))) = true ∧
    (updaterBatch id (fun _ => Except.ok ()) toString stateAB 7
        (some ["r1"]) []).state.lastUpdate = 7 :=
  ⟨by decide,
    ((c9_compile_never_fails id (fun _ => Except.ok ()) toString stateAB 7
        (some ["r1"]) []).2 (by decide)).1⟩

/-- C3: when the RIPE probe and every external probe report "no change",
the batch leaves the published blob and the content-timestamp exactly as
they were, while the batch-attempt timestamp is set to the batch's start
time. -/
theorem c3_no_change_batch_is_frame (gz : String → String)
    (statusUpdate : String → Except String Unit) (fmtTime : Nat → String)
    (s : ControllerState) (batchStart : Nat)
    (ripeRes : Option (List String))
    (extRes : List (String × Option (List String)))
    (hripe : ripeRes = none) (hext : ∀ p ∈ extRes, p.2 = none) :
    (updaterBatch gz statusUpdate fmtTime s batchStart ripeRes
        extRes).state.compressedData = s.compressedData ∧
    (updaterBatch gz statusUpdate fmtTime s batchStart ripeRes
        extRes).state.lastUpdate = s.lastUpdate ∧
    (updaterBatch gz statusUpdate fmtTime s batchStart ripeRes
        extRes).state.lastBatch = batchStart := by
  subst hripe
  have hch : anyChanged none extRes = false := by
    simp only [anyChanged, Option.isSome_none, Bool.false_or,
      List.any_eq_false]
    intro p hp
    simp [hext p hp]
  simp [updaterBatch, updaterBatchWith, hch, probedState]

/-- Witness for C3 at a concrete all-unchanged batch. -/
theorem c3_no_change_batch_is_frame_witness :
    (updaterBatch id (fun _ => Except.ok ()) toString stateAB 5 none
        [("alpha", none), ("beta", none)]).state.compressedData =
      stateAB.compressedData ∧
    (updaterBatch id (fun _ => Except.ok ()) toString stateAB 5 none
        [("alpha", none), ("beta", none)]).state.lastUpdate =
      stateAB.lastUpdate ∧
    (updaterBatch id (fun _ => Except.ok ()) toString stateAB 5 none
        [("alpha", none), ("beta", none)]).state.lastBatch = 5 :=
  c3_no_change_batch_is_frame id (fun _ => Except.ok ()) toString stateAB 5
    none [("alpha", none), ("beta", none)] rfl (by decide)

/-- C4: in a batch where some probe reported fresh data but the compile
step returns no blob, nothing is published and the content-timestamp is
not advanced: blob and `lastUpdate` keep their pre-batch values. Stated
over the compile step the batch calls, abstracted as `compileFn` (the
code consumes it only through `data == nil`). -/
theorem c4_compile_failure_publishes_nothing
    (compileFn : ControllerState → Option String)
    (statusUpdate : String → Except String Unit) (fmtTime : Nat → String)
    (s : ControllerState) (batchStart : Nat)
    (ripeRes : Option (List String))
    (extRes : List (String × Option (List String)))
    (hch : anyChanged ripeRes extRes = true)
    (hfail : compileFn (probedState s ripeRes extRes) = none) :
    (updaterBatchWith compileFn statusUpdate fmtTime s batchStart ripeRes
        extRes).state.compressedData = s.compressedData ∧
    (updaterBatchWith compileFn statusUpdate fmtTime s batchStart ripeRes
        extRes).state.lastUpdate = s.lastUpdate := by
  simp only [probedState] at hfail
  simp [updaterBatchWith, hch, hfail, probedState]

/-- Witness for C4 with an always-failing compile step. -/
theorem c4_compile_failure_publishes_nothing_witness :
    (updaterBatchWith (fun _ => none) (fun _ => Except.ok ()) toString
        stateAB 5 (some ["r1"]) []).state.compressedData =
      stateAB.compressedData ∧
    (updaterBatchWith (fun _ => none) (fun _ => Except.ok ()) toString
        stateAB 5 (some ["r1"]) []).state.lastUpdate =
      stateAB.lastUpdate :=
  c4_compile_failure_publishes_nothing (fun _ => none)
    (fun _ => Except.ok ()) toString stateAB 5 (some ["r1"]) []
    (by decide) rfl

/-- C5: provided the batch starts no earlier than the last recorded
content change (wall time moves forward), the invariant
`lastUpdate ≤ lastBatch` holds in the post-batch state — in particular
at the one point where both timestamps are read, the status-message
formatting, which uses exactly those post-batch values. Stated over an
arbitrary compile step, so it covers every batch outcome. -/
theorem c5_lastUpdate_le_lastBatch
    (compileFn : ControllerState → Option String)
    (statusUpdate : String → Except String Unit) (fmtTime : Nat → String)
    (s : ControllerState) (batchStart : Nat)
    (ripeRes : Option (List String))
    (extRes : List (String × Option (List String)))
    (hstart : s.lastUpdate ≤ batchStart) :
    (updaterBatchWith compileFn statusUpdate fmtTime s batchStart ripeRes
        extRes).state.lastUpdate ≤
      (updaterBatchWith compileFn statusUpdate fmtTime s batchStart
        ripeRes extRes).state.lastBatch ∧
    (updaterBatchWith compileFn statusUpdate fmtTime s batchStart ripeRes
        extRes).sent =
      [statusMessage
        (updaterBatchWith compileFn statusUpdate fmtTime s batchStart
          ripeRes extRes).state.ripeState.length
        (updaterBatchWith compileFn statusUpdate fmtTime s batchStart
          ripeRes extRes).state.externalStates.length
        (((updaterBatchWith compileFn statusUpdate fmtTime s batchStart
          ripeRes extRes).state.externalStates.map
            (fun p => p.2.length)).foldl (· + ·) 0)
        (updaterBatchWith compileFn statusUpdate fmtTime s batchStart
          ripeRes extRes).state.lastUpdate
        (updaterBatchWith compileFn statusUpdate fmtTime s batchStart
          ripeRes extRes).state.lastBatch fmtTime] := by
  constructor
  · unfold updaterBatchWith
    dsimp only
    split
    · simpa [probedState] using hstart
    · cases hcf : compileFn (probedState s ripeRes extRes) <;>
        simp [hcf, probedState, hstart]
  · rfl

/-- Witness for C5 at a concrete batch. -/
theorem c5_lastUpdate_le_lastBatch_witness :
    stateAB.lastUpdate ≤ 5 ∧
    (updaterBatchWith (fun _ => none) (fun _ => Except.ok ()) toString
        stateAB 5 (some ["r1"]) []).state.lastUpdate ≤
      (updaterBatchWith (fun _ => none) (fun _ => Except.ok ()) toString
        stateAB 5 (some ["r1"]) []).state.lastBatch :=
  ⟨by decide,
    (c5_lastUpdate_le_lastBatch (fun _ => none) (fun _ => Except.ok ())
      toString stateAB 5 (some ["r1"]) [] (by decide)).1⟩

/-- C6: the one string passed to the status sink is exactly the fixed
format, where `n` is the post-probe RIPE line count, `m` the number of
external sources (unchanged by slot updates, hence the pre-batch count),
`k` the sum of the post-probe external line counts — all recomputed from
the state at the end of the batch — and the timestamps are the
content-change time and the batch start. Stated over an arbitrary
compile step, so it covers every batch outcome. -/
theorem c6_status_message_format
    (compileFn : ControllerState → Option String)
    (statusUpdate : String → Except String Unit) (fmtTime : Nat → String)
    (s : ControllerState) (batchStart : Nat)
    (ripeRes : Option (List String))
    (extRes : List (String × Option (List String))) :
    (updaterBatchWith compileFn statusUpdate fmtTime s batchStart ripeRes
        extRes).sent =
      ["RIPE: " ++
        toString (probedState s ripeRes extRes).ripeState.length ++
        " range(s) | External: " ++ toString s.externalStates.length ++
        " list(s) with a total of " ++
        toString (((probedState s ripeRes extRes).externalStates.map
          (fun p => p.2.length)).foldl (· + ·) 0) ++
        " line(s) | Last modification: " ++
        fmtTime (updaterBatchWith compileFn statusUpdate fmtTime s
          batchStart ripeRes extRes).state.lastUpdate ++
        " | Last update: " ++ fmtTime batchStart] := by
  have hlen : (applyExternalProbes s.externalStates extRes).length =
      s.externalStates.length := applyExternalProbes_length _ _
  unfold updaterBatchWith
  dsimp only
  split
  · simp [statusMessage, probedState, hlen]
  · cases hcf : compileFn (probedState s ripeRes extRes) <;>
      · simp only [probedState] at hcf
        simp [statusMessage, probedState, hlen, hcf]

/-- C7: in every batch, whatever the outcome, the batch-attempt
timestamp becomes the batch start and exactly one string is handed to
the status sink; and the sink's outcome (success or error) has no effect
on the resulting state or on what was sent — only on the log. -/
theorem c7_status_once_and_best_effort
    (compileFn : ControllerState → Option String) (fmtTime : Nat → String)
    (s : ControllerState) (batchStart : Nat)
    (ripeRes : Option (List String))
    (extRes : List (String × Option (List String))) :
    ∀ sink1 sink2 : String → Except String Unit,
      (updaterBatchWith compileFn sink1 fmtTime s batchStart ripeRes
          extRes).state.lastBatch = batchStart ∧
      (updaterBatchWith compileFn sink1 fmtTime s batchStart ripeRes
          extRes).sent.length = 1 ∧
      (updaterBatchWith compileFn sink1 fmtTime s batchStart ripeRes
          extRes).state =
        (updaterBatchWith compileFn sink2 fmtTime s batchStart ripeRes
          extRes).state ∧
      (updaterBatchWith compileFn sink1 fmtTime s batchStart ripeRes
          extRes).sent =
        (updaterBatchWith compileFn sink2 fmtTime s batchStart ripeRes
          extRes).sent :=
  fun _ _ => ⟨rfl, rfl, rfl, rfl⟩

/-- C8: the worker runs one batch immediately, then one batch per tick,
and stops at the first cancellation: over any event trace the number of
batches is one more than the number of ticks preceding the first
cancellation, so events after a cancellation trigger nothing. -/
theorem c8_scheduler_one_batch_then_one_per_tick
    (events : List UpdaterEvent) :
    updaterBatchCount events =
      1 + (events.takeWhile (fun e => e == UpdaterEvent.tick)).length := by
  unfold updaterBatchCount
  congr 1
  induction events with
  | nil => rfl
  | cons e rest ih =>
    have h1 : (UpdaterEvent.tick == UpdaterEvent.tick) = true := rfl
    have h2 : (UpdaterEvent.done == UpdaterEvent.tick) = false := rfl
    cases e <;>
      simp [updaterLoopBatches, List.takeWhile_cons, ih, h1, h2]

end BTBlocklist
